import Mathlib

/-!
Shallow embedding of the `log` package of chhz0/go-pkg: a leveled structured
logger wrapping Go's `log/slog`. The embedding models:

* the level constants and the level alias (`Level = slog.Level`, an integer);
* the shared mutable threshold (`slog.LevelVar`): loggers hold a pointer
  (`lvlRef`) into a store of level cells, so that the shallow-copy `clone`
  and `SetLevel` aliasing behaviour is faithfully represented;
* the handler's enablement rule (`level >= minLevel`, where `minLevel` is the
  value of the shared `LevelVar` installed in the handler's options by `New`);
* the emission path `log` (gate, record construction, handler dispatch with
  the handler's error discarded) and the public convenience methods that
  funnel through `Log`;
* the `ReplaceAttr` closure installed by `New`, together with a model of
  `slog.Level.String`;
* context attachment (`WithContext`) over a model of `context.Context` as an
  association list written by `context.WithValue`.

Go's strict evaluation order is made observable through an event trace
(`LogEvent`) carried in each emission's `EmitResult`: record construction,
handler invocation and format-string substitution each leave an event, so
that claims about "no work when disabled" are statable.
-/

namespace GoPkgLog

/-- `type Level = slog.Level`: an integer severity. -/
abbrev Level := Int

/-- `LevelDebug = slog.LevelDebug` (= -4). -/
def LevelDebug : Level := -4

/-- `LevelTrace = slog.Level(-2)`: the custom trace level. -/
def LevelTrace : Level := -2

/-- `LevelInfo = slog.LevelInfo` (= 0). -/
def LevelInfo : Level := 0

/-- `LevelWarn = slog.LevelWarn` (= 4). -/
def LevelWarn : Level := 4

/-- `LevelError = slog.LevelError` (= 8). -/
def LevelError : Level := 8

/-- `var LevelIn = []Level{LevelDebug, LevelTrace, LevelInfo, LevelWarn, LevelError}`. -/
def LevelIn : List Level := [LevelDebug, LevelTrace, LevelInfo, LevelWarn, LevelError]

/-- The single value of the package-private `logContextKey` type:
`defaultLogContextKey logContextKey = iota` (= 0). -/
def defaultLogContextKey : Nat := 0

/-- A heap of `slog.LevelVar` cells, indexed by address.  `SlogLogger.lvlRef`
points into this store; `New` allocates one cell shared between the logger
and the handler options. -/
abbrev LevelVarStore := Nat → Level

/-- The `SlogLogger` struct.  `id` models the address of the struct value
itself (pointer identity of `*SlogLogger`); `lvlRef` models the `lvl
*slog.LevelVar` field, the address of the shared threshold cell, which is
also the `Level` installed in the handler options by `New`. -/
structure SlogLogger where
  id : Nat
  lvlRef : Nat
deriving DecidableEq, Repr

/-- `context.Context`, modelled as the association list of values written by
`context.WithValue` under the package-private key type: pairs of a
`logContextKey` value and the stored `*SlogLogger`. -/
abbrev Context := List (Nat × SlogLogger)

/-- `context.Background()`: a context carrying no values. -/
def Context.background : Context := []

/-- `context.WithValue(ctx, key, v)`: a derived context in which `key` maps to
`v` and every other lookup falls through to `ctx`. -/
def contextWithValue (ctx : Context) (key : Nat) (v : SlogLogger) : Context :=
  (key, v) :: ctx

/-- `ctx.Value(key)`: innermost-wins lookup over the derived-context chain. -/
def contextValue : Context → Nat → Option SlogLogger
  | [], _ => none
  | (k, v) :: rest, key => if k = key then some v else contextValue rest key

/-- A `slog.Record` as constructed by `SlogLogger.log`: `slog.NewRecord(time.Now(),
level, msg, pc)` followed by `r.Add(args...)`.  Wall-clock time and the
program counter are immaterial to the claims and omitted; `args` (Go
`...any`) are modelled as strings and kept raw. -/
structure Record where
  level : Level
  msg : String
  attrs : List String
deriving DecidableEq, Repr

/-- Observable work done during an emission call, in Go's strict evaluation
order: format-string substitution (`fmt.Sprintf` inside `Infof`), record
construction (`slog.NewRecord`), handler dispatch (`Handler().Handle`). -/
inductive LogEvent where
  | sprintfEvaluated (format : String) (args : List String) : LogEvent
  | recordConstructed (r : Record) : LogEvent
  | handlerInvoked (r : Record) : LogEvent
deriving DecidableEq, Repr

/-- The outcome of one emission call: the record handed to the handler (if
any), the error propagated to the caller (the Go methods return nothing, and
the handler's error is discarded with `_ =`), and the event trace. -/
structure EmitResult where
  dispatched : Option Record
  callerError : Option String
  events : List LogEvent
deriving DecidableEq, Repr

/-- `l.l.Enabled(ctx, level)`, which forwards to the JSON handler's
`Enabled`: `level >= minLevel` where `minLevel` is the current value of the
shared `LevelVar` installed by `New` (`opts.Level = &lvl`).  The context is
ignored by the handler. -/
def handlerEnabled (σ : LevelVarStore) (l : SlogLogger) (_ctx : Option Context)
    (level : Level) : Bool :=
  decide (σ l.lvlRef ≤ level)

/-- `func (l *SlogLogger) SetLevel(level Level) { l.lvl.Set(level) }`:
updates the shared threshold cell. -/
def SlogLogger.SetLevel (σ : LevelVarStore) (l : SlogLogger) (level : Level) :
    LevelVarStore :=
  fun r => if r = l.lvlRef then level else σ r

/-- `func (l *SlogLogger) Enabled() bool { return l.l.Enabled(context.Background(), l.lvl.Level()) }`. -/
def SlogLogger.Enabled (σ : LevelVarStore) (l : SlogLogger) : Bool :=
  handlerEnabled σ l (some Context.background) (σ l.lvlRef)

/-- The probe loop of `GetLogLevel`: walk the remaining levels in order,
return the first enabled one, else keep the initial `-10`. -/
def getLogLevelLoop (σ : LevelVarStore) (l : SlogLogger) : List Level → Level
  | [] => -10
  | level :: rest =>
    if handlerEnabled σ l (some Context.background) level then level
    else getLogLevelLoop σ l rest

/-- `func (l *SlogLogger) GetLogLevel() Level`: `currentLevel := -10`, probe
`LevelIn` in order, break at the first level for which
`l.l.Enabled(context.Background(), level)` holds. -/
def SlogLogger.GetLogLevel (σ : LevelVarStore) (l : SlogLogger) : Level :=
  getLogLevelLoop σ l LevelIn

/-- `func (l *SlogLogger) WithContext(ctx context.Context) context.Context {
return context.WithValue(ctx, defaultLogContextKey, l) }`. -/
def SlogLogger.WithContext (l : SlogLogger) (ctx : Context) : Context :=
  contextWithValue ctx defaultLogContextKey l

/-- `func (l *SlogLogger) clone() *SlogLogger { c := *l; return &c }`: a
shallow struct copy at a fresh address `newId`; the `lvlRef` field is copied
verbatim, so the copy aliases the same threshold cell. -/
def SlogLogger.clone (l : SlogLogger) (newId : Nat) : SlogLogger :=
  { l with id := newId }

/-- `func (l *SlogLogger) log(ctx, level, msg, args...)`: gate on
`l.l.Enabled(ctx, level)`; if disabled return immediately; otherwise build
the record, default a nil context to `context.Background()`, and dispatch
via `_ = l.l.Handler().Handle(ctx, r)`, discarding the handler's error.
The handler is a parameter (external collaborator); a `none` context models
a nil `context.Context`. -/
def SlogLogger.log (σ : LevelVarStore) (l : SlogLogger)
    (handle : Context → Record → Option String) (ctx : Option Context)
    (level : Level) (msg : String) (args : List String) : EmitResult :=
  if !(handlerEnabled σ l ctx level) then
    { dispatched := none, callerError := none, events := [] }
  else
    let r : Record := { level := level, msg := msg, attrs := args }
    let ctx2 : Context := ctx.getD Context.background
    let _discarded : Option String := handle ctx2 r
    { dispatched := some r, callerError := none,
      events := [LogEvent.recordConstructed r, LogEvent.handlerInvoked r] }

/-- `func (l *SlogLogger) Log(ctx, level, msg, args...) { l.log(ctx, level, msg, args...) }`. -/
def SlogLogger.Log (σ : LevelVarStore) (l : SlogLogger)
    (handle : Context → Record → Option String) (ctx : Option Context)
    (level : Level) (msg : String) (args : List String) : EmitResult :=
  SlogLogger.log σ l handle ctx level msg args

/-- Model of the external `fmt.Sprintf` from the Go standard library,
restricted to `%s` verbs: each `%s` in the format string is replaced by the
next argument in order.  Only its identity as a function matters to the
claims, never its internals. -/
def sprintfAux : List String → List String → String
  | [], _ => ""
  | [piece], _ => piece
  | piece :: rest, [] => piece ++ sprintfAux rest []
  | piece :: rest, a :: as => piece ++ a ++ sprintfAux rest as

/-- `fmt.Sprintf(format, args...)` (model, `%s` verbs only). -/
def sprintf (format : String) (args : List String) : String :=
  sprintfAux (format.splitOn "%s") args

/-- `func (l *SlogLogger) Info(msg string, args ...any) { l.Log(context.Background(), LevelInfo, msg, args...) }`. -/
def SlogLogger.Info (σ : LevelVarStore) (l : SlogLogger)
    (handle : Context → Record → Option String)
    (msg : String) (args : List String) : EmitResult :=
  SlogLogger.Log σ l handle (some Context.background) LevelInfo msg args

/-- `func (l *SlogLogger) Infof(format string, args ...any) {
l.Log(context.Background(), LevelInfo, fmt.Sprintf(format, args...)) }`.
Go evaluates `fmt.Sprintf` strictly, before `Log` runs its gate check; the
substitution event is therefore recorded unconditionally, ahead of the
events of the inner call. -/
def SlogLogger.Infof (σ : LevelVarStore) (l : SlogLogger)
    (handle : Context → Record → Option String)
    (format : String) (args : List String) : EmitResult :=
  let m : String := sprintf format args
  let res : EmitResult :=
    SlogLogger.Log σ l handle (some Context.background) LevelInfo m []
  { res with events := LogEvent.sprintfEvaluated format args :: res.events }

/-- `func (l *SlogLogger) InfoContext(ctx context.Context, msg string, args ...any) {
l.Log(ctx, LevelInfo, msg, args...) }`. -/
def SlogLogger.InfoContext (σ : LevelVarStore) (l : SlogLogger)
    (handle : Context → Record → Option String) (ctx : Option Context)
    (msg : String) (args : List String) : EmitResult :=
  SlogLogger.Log σ l handle ctx LevelInfo msg args

/-- `func (l *SlogLogger) Trace(msg string, args ...any) { l.Log(context.Background(), LevelTrace, msg, args...) }`. -/
def SlogLogger.Trace (σ : LevelVarStore) (l : SlogLogger)
    (handle : Context → Record → Option String)
    (msg : String) (args : List String) : EmitResult :=
  SlogLogger.Log σ l handle (some Context.background) LevelTrace msg args

/-- `func (l *SlogLogger) Warn(msg string, args ...any) { l.Log(context.Background(), LevelWarn, msg, args...) }`. -/
def SlogLogger.Warn (σ : LevelVarStore) (l : SlogLogger)
    (handle : Context → Record → Option String)
    (msg : String) (args : List String) : EmitResult :=
  SlogLogger.Log σ l handle (some Context.background) LevelWarn msg args

/-- `func (l *SlogLogger) Error(msg string, args ...any) { l.Log(context.Background(), LevelError, msg, args...) }`. -/
def SlogLogger.Error (σ : LevelVarStore) (l : SlogLogger)
    (handle : Context → Record → Option String)
    (msg : String) (args : List String) : EmitResult :=
  SlogLogger.Log σ l handle (some Context.background) LevelError msg args

/-- `fmt.Sprintf("%+d", v)`: an integer rendered with an explicit sign. -/
def fmtPlusInt (v : Int) : String :=
  if 0 ≤ v then "+" ++ toString v else toString v

/-- Model of the external `slog.Level.String`: the nearest named base below
the level plus a signed offset, `DEBUG` for levels below Info, `INFO` below
Warn, `WARN` below Error, `ERROR` otherwise; a zero offset prints the bare
base name. -/
def levelStringGo (base : String) (val : Level) : String :=
  if val = 0 then base else base ++ fmtPlusInt val

/-- `slog.Level.String()` (model, from the external library source). -/
def levelString (l : Level) : String :=
  if l < LevelInfo then levelStringGo "DEBUG" (l - LevelDebug)
  else if l < LevelWarn then levelStringGo "INFO" l
  else if l < LevelError then levelStringGo "WARN" (l - LevelWarn)
  else levelStringGo "ERROR" (l - LevelError)

/-- `slog.LevelKey`: the key of the level attribute in handler output. -/
def slogLevelKey : String := "level"

/-- The value held by a `slog.Attr` as far as the `ReplaceAttr` closure can
observe it: either a level (what `a.Value.Any().(slog.Level)` asserts) or a
string (what `slog.StringValue` produces). -/
inductive AttrValue where
  | level (l : Level) : AttrValue
  | str (s : String) : AttrValue
deriving DecidableEq, Repr

/-- A `slog.Attr`: key/value pair. -/
structure Attr where
  key : String
  value : AttrValue
deriving DecidableEq, Repr

/-- The `ReplaceAttr` closure installed by `New`: on the level attribute,
take the level's standard label via `level.String()`, override it with
`"TRACE"` when the level is `LevelTrace`, and store it back as a string
value; every other attribute passes through unchanged.  The Go type
assertion `a.Value.Any().(slog.Level)` panics when the level attribute does
not hold a level; that is modelled as `none`. -/
def replaceAttr (_groups : List String) (a : Attr) : Option Attr :=
  if a.key = slogLevelKey then
    match a.value with
    | AttrValue.level level =>
      let levelLabel := levelString level
      let levelLabel := if level = LevelTrace then "TRACE" else levelLabel
      some { key := a.key, value := AttrValue.str levelLabel }
    | AttrValue.str _ => none
  else
    some a

/-- A concrete store for evaluation: every `LevelVar` cell holds `LevelWarn`,
so the Info level (0 < 4) is disabled. -/
def warnStore : LevelVarStore := fun _ => LevelWarn

/-- A concrete logger value at address 0, threshold cell 0. -/
def l0 : SlogLogger := { id := 0, lvlRef := 0 }

/-- A concrete handler that always succeeds. -/
def okHandle : Context → Record → Option String := fun _ _ => none

/-! ## Theorems -/

/-- C9: the named level constants have exactly the integer values
`Debug = -4`, `Trace = -2`, `Info = 0`, `Warn = 4`, `Error = 8`, and the
ordering `Debug < Trace < Info < Warn < Error` holds. -/
theorem level_constants_exact :
    LevelDebug = -4 ∧ LevelTrace = -2 ∧ LevelInfo = 0 ∧ LevelWarn = 4 ∧
    LevelError = 8 ∧ LevelDebug < LevelTrace ∧ LevelTrace < LevelInfo ∧
    LevelInfo < LevelWarn ∧ LevelWarn < LevelError := by
  refine ⟨rfl, rfl, rfl, rfl, rfl, ?_, ?_, ?_, ?_⟩ <;> decide

/-- C1: for every named level `L` and the threshold `T` currently stored in
the logger's level cell, `log` dispatches a record to the handler iff
`L ≥ T`; when `L < T` the call returns immediately, constructing no record
and invoking no handler (empty event trace, nothing dispatched). -/
theorem log_gating (σ : LevelVarStore) (l : SlogLogger)
    (handle : Context → Record → Option String) (ctx : Option Context)
    (level : Level) (msg : String) (args : List String)
    (hmem : level ∈ LevelIn) :
    ((SlogLogger.log σ l handle ctx level msg args).dispatched.isSome = true
      ↔ σ l.lvlRef ≤ level) ∧
    (level < σ l.lvlRef →
      SlogLogger.log σ l handle ctx level msg args =
        { dispatched := none, callerError := none, events := [] }) := by
  unfold SlogLogger.log handlerEnabled
  unfold LevelVarStore at *
  unfold Level at *
  by_cases h : σ l.lvlRef ≤ level
  · constructor
    · simp [h]
    · intro hlt
      exact absurd hlt (by omega)
  · constructor
    · simp [h]
    · intro _
      simp [h]

/-- Witness for C1 at a concrete input: level Info against threshold Warn. -/
theorem log_gating_witness :
    LevelInfo ∈ LevelIn ∧
    (((SlogLogger.log warnStore l0 okHandle none LevelInfo "m" []).dispatched.isSome = true
       ↔ warnStore l0.lvlRef ≤ LevelInfo) ∧
     (LevelInfo < warnStore l0.lvlRef →
       SlogLogger.log warnStore l0 okHandle none LevelInfo "m" [] =
         { dispatched := none, callerError := none, events := [] })) :=
  ⟨by decide, log_gating warnStore l0 okHandle none LevelInfo "m" [] (by decide)⟩

/-- `GetLogLevel` in closed form: the probe loop over the literal `LevelIn`
collapses to a chain of threshold comparisons. -/
theorem getLogLevel_closed (σ : LevelVarStore) (l : SlogLogger) :
    SlogLogger.GetLogLevel σ l =
      (if σ l.lvlRef ≤ LevelDebug then LevelDebug
       else if σ l.lvlRef ≤ LevelTrace then LevelTrace
       else if σ l.lvlRef ≤ LevelInfo then LevelInfo
       else if σ l.lvlRef ≤ LevelWarn then LevelWarn
       else if σ l.lvlRef ≤ LevelError then LevelError
       else -10) := by
  simp only [SlogLogger.GetLogLevel, LevelIn, getLogLevelLoop, handlerEnabled,
    decide_eq_true_eq]

/-- C2: `SetLevel T` then `GetLogLevel` returns the lowest named level `≥ T`
in the probe order `Debug, Trace, Info, Warn, Error`; when `T` is above
`Error` it returns a sentinel strictly below every defined level. -/
theorem setLevel_getLogLevel (σ : LevelVarStore) (l : SlogLogger) (T : Level) :
    (T ≤ LevelError →
      SlogLogger.GetLogLevel (SlogLogger.SetLevel σ l T) l ∈ LevelIn ∧
      T ≤ SlogLogger.GetLogLevel (SlogLogger.SetLevel σ l T) l ∧
      ∀ v ∈ LevelIn, T ≤ v →
        SlogLogger.GetLogLevel (SlogLogger.SetLevel σ l T) l ≤ v) ∧
    (LevelError < T →
      SlogLogger.GetLogLevel (SlogLogger.SetLevel σ l T) l = -10 ∧
      ∀ v ∈ LevelIn, SlogLogger.GetLogLevel (SlogLogger.SetLevel σ l T) l < v) := by
  have hT : SlogLogger.SetLevel σ l T l.lvlRef = T := by
    simp [SlogLogger.SetLevel]
  rw [getLogLevel_closed, hT]
  simp only [LevelDebug, LevelTrace, LevelInfo, LevelWarn, LevelError, LevelIn]
  unfold Level at *
  constructor
  · intro hle
    rcases le_or_lt T (-4 : Int) with h1 | h1
    · rw [if_pos h1]
      refine ⟨by decide, h1, ?_⟩
      intro v hv htv
      fin_cases hv <;> omega
    · rcases le_or_lt T (-2 : Int) with h2 | h2
      · rw [if_neg (by omega), if_pos h2]
        refine ⟨by decide, h2, ?_⟩
        intro v hv htv
        fin_cases hv <;> omega
      · rcases le_or_lt T (0 : Int) with h3 | h3
        · rw [if_neg (by omega), if_neg (by omega), if_pos h3]
          refine ⟨by decide, h3, ?_⟩
          intro v hv htv
          fin_cases hv <;> omega
        · rcases le_or_lt T (4 : Int) with h4 | h4
          · rw [if_neg (by omega), if_neg (by omega), if_neg (by omega),
              if_pos h4]
            refine ⟨by decide, h4, ?_⟩
            intro v hv htv
            fin_cases hv <;> omega
          · rw [if_neg (by omega), if_neg (by omega), if_neg (by omega),
              if_neg (by omega), if_pos hle]
            refine ⟨by decide, hle, ?_⟩
            intro v hv htv
            fin_cases hv <;> omega
  · intro hgt
    rw [if_neg (by omega), if_neg (by omega), if_neg (by omega),
      if_neg (by omega), if_neg (by omega)]
    refine ⟨rfl, ?_⟩
    intro v hv
    fin_cases hv <;> decide

/-- Witness for C2 at a concrete input: threshold 3 yields Warn (= 4). -/
theorem setLevel_getLogLevel_witness :
    (3 : Level) ≤ LevelError ∧
    (SlogLogger.GetLogLevel (SlogLogger.SetLevel warnStore l0 3) l0 ∈ LevelIn ∧
     (3 : Level) ≤ SlogLogger.GetLogLevel (SlogLogger.SetLevel warnStore l0 3) l0 ∧
     ∀ v ∈ LevelIn, (3 : Level) ≤ v →
       SlogLogger.GetLogLevel (SlogLogger.SetLevel warnStore l0 3) l0 ≤ v) :=
  ⟨by decide, (setLevel_getLogLevel warnStore l0 3).1 (by decide)⟩

/-- C3: `SetLevel` through a `clone` handle updates the very same threshold
cell: the resulting store, every subsequent gating decision of the original
logger, and its `GetLogLevel` result coincide with those of a direct
`SetLevel` on the original. -/
theorem clone_aliases_threshold (σ : LevelVarStore) (l : SlogLogger)
    (newId : Nat) (x : Level) :
    SlogLogger.SetLevel σ (SlogLogger.clone l newId) x =
      SlogLogger.SetLevel σ l x ∧
    SlogLogger.GetLogLevel (SlogLogger.SetLevel σ (SlogLogger.clone l newId) x) l =
      SlogLogger.GetLogLevel (SlogLogger.SetLevel σ l x) l ∧
    ∀ (ctx : Option Context) (level : Level),
      handlerEnabled (SlogLogger.SetLevel σ (SlogLogger.clone l newId) x) l ctx level =
        handlerEnabled (SlogLogger.SetLevel σ l x) l ctx level :=
  ⟨rfl, rfl, fun _ _ => rfl⟩

/-- C4 counterexample: with the threshold at Warn the Info level is
disabled, yet `Infof` still performs the internal format-string
substitution (`fmt.Sprintf` runs before the gate), so the claim "no
internal format-string substitution when Info is disabled" is false. -/
theorem infof_formats_when_disabled :
    handlerEnabled warnStore l0 (some Context.background) LevelInfo = false ∧
    LogEvent.sprintfEvaluated "x=%s" ["3"] ∈
      (SlogLogger.Infof warnStore l0 okHandle "x=%s" ["3"]).events := by
  constructor
  · rfl
  · simp [SlogLogger.Infof]

/-- C4 amended: when the Info level is disabled by the current threshold, an
`Infof` call dispatches no record and invokes no handler, but it still
performs the format-string substitution, which happens unconditionally
before the gating check. -/
theorem infof_disabled_no_dispatch (σ : LevelVarStore) (l : SlogLogger)
    (handle : Context → Record → Option String) (format : String)
    (args : List String) (h : LevelInfo < σ l.lvlRef) :
    (SlogLogger.Infof σ l handle format args).dispatched = none ∧
    (SlogLogger.Infof σ l handle format args).events =
      [LogEvent.sprintfEvaluated format args] := by
  unfold SlogLogger.Infof SlogLogger.Log SlogLogger.log handlerEnabled
  unfold LevelVarStore at *
  unfold Level at *
  unfold LevelInfo at h
  have hc : ¬ (σ l.lvlRef ≤ LevelInfo) := by
    unfold LevelInfo
    unfold Level
    omega
  simp [hc]

/-- Witness for the amended C4 at a concrete input: threshold Warn. -/
theorem infof_disabled_no_dispatch_witness :
    LevelInfo < warnStore l0.lvlRef ∧
    ((SlogLogger.Infof warnStore l0 okHandle "x=%s" ["3"]).dispatched = none ∧
     (SlogLogger.Infof warnStore l0 okHandle "x=%s" ["3"]).events =
       [LogEvent.sprintfEvaluated "x=%s" ["3"]]) :=
  ⟨by decide, infof_disabled_no_dispatch warnStore l0 okHandle "x=%s" ["3"] (by decide)⟩

/-- C5: every convenience method equals a call of the generic entry point
`Log` with its fixed target level: `Info`, `Trace`, `Warn`, `Error` with a
background context, `InfoContext` with the supplied context, and `Infof`
with the formatted message and an empty attribute list (equal in dispatched
record and propagated error). -/
theorem convenience_methods_funnel (σ : LevelVarStore) (l : SlogLogger)
    (handle : Context → Record → Option String) (ctx : Option Context)
    (msg format : String) (args : List String) :
    SlogLogger.Info σ l handle msg args =
      SlogLogger.Log σ l handle (some Context.background) LevelInfo msg args ∧
    SlogLogger.Trace σ l handle msg args =
      SlogLogger.Log σ l handle (some Context.background) LevelTrace msg args ∧
    SlogLogger.Warn σ l handle msg args =
      SlogLogger.Log σ l handle (some Context.background) LevelWarn msg args ∧
    SlogLogger.Error σ l handle msg args =
      SlogLogger.Log σ l handle (some Context.background) LevelError msg args ∧
    SlogLogger.InfoContext σ l handle ctx msg args =
      SlogLogger.Log σ l handle ctx LevelInfo msg args ∧
    (SlogLogger.Infof σ l handle format args).dispatched =
      (SlogLogger.Log σ l handle (some Context.background) LevelInfo
        (sprintf format args) []).dispatched ∧
    (SlogLogger.Infof σ l handle format args).callerError =
      (SlogLogger.Log σ l handle (some Context.background) LevelInfo
        (sprintf format args) []).callerError := by
  refine ⟨rfl, rfl, rfl, rfl, rfl, ?_, ?_⟩ <;> simp [SlogLogger.Infof]

/-- C6: through the handler's `ReplaceAttr` closure, the level attribute of
a record at the custom Trace level serializes with label exactly `"TRACE"`,
while records at the other named levels keep their standard labels
`"DEBUG"`, `"INFO"`, `"WARN"`, `"ERROR"`. -/
theorem replaceAttr_level_labels (groups : List String) :
    replaceAttr groups { key := slogLevelKey, value := AttrValue.level LevelTrace } =
      some { key := slogLevelKey, value := AttrValue.str "TRACE" } ∧
    replaceAttr groups { key := slogLevelKey, value := AttrValue.level LevelDebug } =
      some { key := slogLevelKey, value := AttrValue.str "DEBUG" } ∧
    replaceAttr groups { key := slogLevelKey, value := AttrValue.level LevelInfo } =
      some { key := slogLevelKey, value := AttrValue.str "INFO" } ∧
    replaceAttr groups { key := slogLevelKey, value := AttrValue.level LevelWarn } =
      some { key := slogLevelKey, value := AttrValue.str "WARN" } ∧
    replaceAttr groups { key := slogLevelKey, value := AttrValue.level LevelError } =
      some { key := slogLevelKey, value := AttrValue.str "ERROR" } := by
  refine ⟨?_, ?_, ?_, ?_, ?_⟩ <;> rfl

/-- C7: an emission call propagates no error to its caller at any level: a
disabled level yields no error, and the handler's dispatch error — whatever
it is — is discarded at the point of dispatch. -/
theorem log_never_errors (σ : LevelVarStore) (l : SlogLogger)
    (handle : Context → Record → Option String) (ctx : Option Context)
    (level : Level) (msg : String) (args : List String) :
    (SlogLogger.log σ l handle ctx level msg args).callerError = none := by
  unfold SlogLogger.log
  split
  · rfl
  · rfl

/-- C8: looking up the package-private context key in the context returned
by `WithContext` yields the identical logger value that was attached, not a
copy. -/
theorem withContext_lookup (l : SlogLogger) (ctx : Context) :
    contextValue (SlogLogger.WithContext l ctx) defaultLogContextKey = some l :=
  rfl

/-- C10: after any `SetLevel`, `Enabled()` returns true: it asks whether a
record at the current threshold itself would be accepted, and a level is
always enabled against a threshold equal to itself. -/
theorem enabled_always_true (σ : LevelVarStore) (l : SlogLogger) (T : Level) :
    SlogLogger.Enabled (SlogLogger.SetLevel σ l T) l = true := by
  simp [SlogLogger.Enabled, handlerEnabled]

end GoPkgLog
